import Mathlib

/-!
# Verification of EventManager.hpp (callback-slot library)

Shallow embedding of `src/EventManager.hpp`.

Modelling conventions:
* An erased object pointer (`EventManager*` in the source, produced by
  `static_cast` at bind time) is an address, modelled as `Option Nat`
  with `none` standing for the null pointer.
* An erased pointer-to-member (`void (EventManager::*)(...)`, produced by
  `reinterpret_cast` at bind time) is a method identifier, modelled as
  `Option Nat` with `none` standing for the null member pointer.
* A method call `(m_object->*m_eventReceive)(args)` is modelled by an
  ambient method-dispatch semantics `call : Nat → Nat → ... → σ → σ`
  transforming a world `σ`; `invoke` returns the pair
  (the slot, i.e. `*this`, after the call; the world after the call),
  mirroring that the member function body assigns to no field.
* The C++ truthiness guard `if (m_object && m_eventReceive)` is the
  test that both stored options are `some`.
* A reference parameter `P&` is modelled as a store location (`Nat`)
  into whatever store the world holds; a pointer parameter `P*` is a
  nullable location (`Option Nat`).
-/

/-- The opaque placeholder class of the source: `class EventManager` only
declares private member-pointer type aliases and carries no state. Object
pointers cast to `EventManager*` are modelled as bare addresses, so the
placeholder itself needs no content. -/
def EventManagerPlaceholder : Type := Unit

/-- `class EventCallbackVoid`: slot for zero-argument handlers.
Fields `m_object` and `m_eventReceive` both default to `nullptr` (`none`). -/
structure EventCallbackVoid where
  m_object : Option Nat := none
  m_eventReceive : Option Nat := none
deriving DecidableEq, Repr

/-- `EventCallbackVoid::invoke()`: if both the stored object pointer and the
stored member pointer are non-null, performs `(m_object->*m_eventReceive)()`
via the dispatch semantics `call`; otherwise does nothing. Returns the slot
(`*this`, which the body never writes) together with the resulting world. -/
def EventCallbackVoid.invoke {σ : Type} (call : Nat → Nat → σ → σ)
    (s : EventCallbackVoid) (w : σ) : EventCallbackVoid × σ :=
  match s.m_object, s.m_eventReceive with
  | some o, some m => (s, call o m w)
  | _, _ => (s, w)

/-- `EventCallbackVoid::set(T* object, void (T::*method)())`: stores the
(erased) object pointer into `m_object` and the (erased) member pointer into
`m_eventReceive`, overwriting both fields unconditionally. -/
def EventCallbackVoid.set (_s : EventCallbackVoid)
    (object : Option Nat) (method : Option Nat) : EventCallbackVoid :=
  { m_object := object, m_eventReceive := method }

/-- `template<typename P> class EventCallbackArg`: slot for handlers taking
one argument of type `P` by value. `P` occurs only in the member-pointer
type, so it is a phantom parameter of the slot state. -/
structure EventCallbackArg (P : Type) where
  m_object : Option Nat := none
  m_eventReceive : Option Nat := none
deriving DecidableEq, Repr

/-- `EventCallbackArg<P>::invoke(P value)`: if both fields are non-null,
performs `(m_object->*m_eventReceive)(value)`, handing the callee the
argument value itself (a copy, since the parameter is by value). -/
def EventCallbackArg.invoke {P σ : Type} (call : Nat → Nat → P → σ → σ)
    (s : EventCallbackArg P) (value : P) (w : σ) : EventCallbackArg P × σ :=
  match s.m_object, s.m_eventReceive with
  | some o, some m => (s, call o m value w)
  | _, _ => (s, w)

/-- `EventCallbackArg<P>::set(T* object, void (T::*method)(P))`: stores both
erased pointers unconditionally. -/
def EventCallbackArg.set {P : Type} (_s : EventCallbackArg P)
    (object : Option Nat) (method : Option Nat) : EventCallbackArg P :=
  { m_object := object, m_eventReceive := method }

/-- `template<typename P> class EventCallbackRefArg`: slot for handlers
taking `P` by mutable reference. -/
structure EventCallbackRefArg (P : Type) where
  m_object : Option Nat := none
  m_eventReceive : Option Nat := none
deriving DecidableEq, Repr

/-- `EventCallbackRefArg<P>::invoke(P& value)`: if both fields are non-null,
performs `(m_object->*m_eventReceive)(value)`. The reference parameter is
modelled as the location `valueLoc` of the caller's storage, passed to the
callee unchanged; the callee's effect on the world (which holds that
storage) is returned to the caller. -/
def EventCallbackRefArg.invoke {P σ : Type} (call : Nat → Nat → Nat → σ → σ)
    (s : EventCallbackRefArg P) (valueLoc : Nat) (w : σ) :
    EventCallbackRefArg P × σ :=
  match s.m_object, s.m_eventReceive with
  | some o, some m => (s, call o m valueLoc w)
  | _, _ => (s, w)

/-- `EventCallbackRefArg<P>::set(T* object, void (T::*method)(P&))`: stores
both erased pointers unconditionally. -/
def EventCallbackRefArg.set {P : Type} (_s : EventCallbackRefArg P)
    (object : Option Nat) (method : Option Nat) : EventCallbackRefArg P :=
  { m_object := object, m_eventReceive := method }

/-- `template<typename P> class EventCallbackPtrArg`: slot for handlers
taking a pointer to `P`. -/
structure EventCallbackPtrArg (P : Type) where
  m_object : Option Nat := none
  m_eventReceive : Option Nat := none
deriving DecidableEq, Repr

/-- `EventCallbackPtrArg<P>::invoke(P* value)`: if both fields are non-null,
performs `(m_object->*m_eventReceive)(value)`. The pointer argument is a
nullable location (`none` = null pointer) handed to the callee exactly as
given — the body performs no null check, substitution or dereference on it. -/
def EventCallbackPtrArg.invoke {P σ : Type} (call : Nat → Nat → Option Nat → σ → σ)
    (s : EventCallbackPtrArg P) (value : Option Nat) (w : σ) :
    EventCallbackPtrArg P × σ :=
  match s.m_object, s.m_eventReceive with
  | some o, some m => (s, call o m value w)
  | _, _ => (s, w)

/-- `EventCallbackPtrArg<P>::set(T* object, void (T::*method)(P*))`: stores
both erased pointers unconditionally. -/
def EventCallbackPtrArg.set {P : Type} (_s : EventCallbackPtrArg P)
    (object : Option Nat) (method : Option Nat) : EventCallbackPtrArg P :=
  { m_object := object, m_eventReceive := method }

/-! ## Iterated invocation (caller driver code)

`iter…` runs `invoke` a given number of times, threading the slot and the
world exactly as repeated calls at a C++ call site would. For the
argument-taking variants the same argument is passed at every call. -/

def iterVoid {σ : Type} (call : Nat → Nat → σ → σ) :
    Nat → EventCallbackVoid × σ → EventCallbackVoid × σ
  | 0, p => p
  | n + 1, p => iterVoid call n (p.1.invoke call p.2)

def iterArg {P σ : Type} (call : Nat → Nat → P → σ → σ) (value : P) :
    Nat → EventCallbackArg P × σ → EventCallbackArg P × σ
  | 0, p => p
  | n + 1, p => iterArg call value n (p.1.invoke call value p.2)

def iterRefArg {P σ : Type} (call : Nat → Nat → Nat → σ → σ) (valueLoc : Nat) :
    Nat → EventCallbackRefArg P × σ → EventCallbackRefArg P × σ
  | 0, p => p
  | n + 1, p => iterRefArg call valueLoc n (p.1.invoke call valueLoc p.2)

def iterPtrArg {P σ : Type} (call : Nat → Nat → Option Nat → σ → σ) (value : Option Nat) :
    Nat → EventCallbackPtrArg P × σ → EventCallbackPtrArg P × σ
  | 0, p => p
  | n + 1, p => iterPtrArg call value n (p.1.invoke call value p.2)

/-! ## Observer dispatch semantics (test instrumentation)

These method-dispatch semantics record which (object, method) pair — and,
where relevant, which argument — each performed call targeted, into a
world that is a list of call records. -/

/-- Observer world for the no-argument shape: appends `(object, method)`
for every call performed. -/
def traceVoid : Nat → Nat → List (Nat × Nat) → List (Nat × Nat) :=
  fun o m tr => tr ++ [(o, m)]

/-- Observer for the by-value shape, recording only the dispatch target. -/
def traceArg {P : Type} : Nat → Nat → P → List (Nat × Nat) → List (Nat × Nat) :=
  fun o m _ tr => tr ++ [(o, m)]

/-- Observer for the by-reference shape, recording only the dispatch target. -/
def traceRefArg : Nat → Nat → Nat → List (Nat × Nat) → List (Nat × Nat) :=
  fun o m _ tr => tr ++ [(o, m)]

/-- Observer for the pointer shape, recording only the dispatch target. -/
def traceTargetPtrArg : Nat → Nat → Option Nat → List (Nat × Nat) → List (Nat × Nat) :=
  fun o m _ tr => tr ++ [(o, m)]

/-- Observer for the by-value shape, recording the argument value each call
received. -/
def traceArgValue {P : Type} : Nat → Nat → P → List P → List P :=
  fun _ _ v log => log ++ [v]

/-- Observer for the pointer shape, recording target and received pointer. -/
def tracePtrArg : Nat → Nat → Option Nat →
    List (Nat × Nat × Option Nat) → List (Nat × Nat × Option Nat) :=
  fun o m pv tr => tr ++ [(o, m, pv)]

/-- Test handler: a method whose body increments a counter held in the
world (the spec's counter-incrementing scenario method). -/
def tickHandler : Nat → Nat → Nat → Nat :=
  fun _ _ c => c + 1

/-! ## Bound-slot invocation: helper lemmas -/

theorem invoke_set_void {σ : Type} (call : Nat → Nat → σ → σ)
    (s : EventCallbackVoid) (o m : Nat) (w : σ) :
    (s.set (some o) (some m)).invoke call w =
      (s.set (some o) (some m), call o m w) := rfl

theorem invoke_set_arg {P σ : Type} (call : Nat → Nat → P → σ → σ)
    (s : EventCallbackArg P) (o m : Nat) (v : P) (w : σ) :
    (s.set (some o) (some m)).invoke call v w =
      (s.set (some o) (some m), call o m v w) := rfl

theorem invoke_set_refArg {P σ : Type} (call : Nat → Nat → Nat → σ → σ)
    (s : EventCallbackRefArg P) (o m : Nat) (valueLoc : Nat) (w : σ) :
    (s.set (some o) (some m)).invoke call valueLoc w =
      (s.set (some o) (some m), call o m valueLoc w) := rfl

theorem invoke_set_ptrArg {P σ : Type} (call : Nat → Nat → Option Nat → σ → σ)
    (s : EventCallbackPtrArg P) (o m : Nat) (value : Option Nat) (w : σ) :
    (s.set (some o) (some m)).invoke call value w =
      (s.set (some o) (some m), call o m value w) := rfl

/-- Iterating the observer semantics on a slot bound to `(o, m)` appends one
`(o, m)` record per invocation. -/
theorem iterVoid_trace (s : EventCallbackVoid) (o m : Nat)
    (hO : s.m_object = some o) (hM : s.m_eventReceive = some m) :
    ∀ (n : Nat) (tr : List (Nat × Nat)),
      iterVoid traceVoid n (s, tr) = (s, tr ++ List.replicate n (o, m)) := by
  intro n
  induction n with
  | zero => intro tr; simp [iterVoid]
  | succ k ih =>
      intro tr
      obtain ⟨so, sm⟩ := s
      cases hO; cases hM
      simp only [iterVoid, EventCallbackVoid.invoke, traceVoid]
      rw [ih]
      simp [List.replicate_succ]

theorem iterArg_trace {P : Type} (s : EventCallbackArg P) (o m : Nat) (v : P)
    (hO : s.m_object = some o) (hM : s.m_eventReceive = some m) :
    ∀ (n : Nat) (tr : List (Nat × Nat)),
      iterArg traceArg v n (s, tr) = (s, tr ++ List.replicate n (o, m)) := by
  intro n
  induction n with
  | zero => intro tr; simp [iterArg]
  | succ k ih =>
      intro tr
      obtain ⟨so, sm⟩ := s
      cases hO; cases hM
      simp only [iterArg, EventCallbackArg.invoke, traceArg]
      rw [ih]
      simp [List.replicate_succ]

theorem iterRefArg_trace {P : Type} (s : EventCallbackRefArg P) (o m : Nat) (valueLoc : Nat)
    (hO : s.m_object = some o) (hM : s.m_eventReceive = some m) :
    ∀ (n : Nat) (tr : List (Nat × Nat)),
      iterRefArg traceRefArg valueLoc n (s, tr) = (s, tr ++ List.replicate n (o, m)) := by
  intro n
  induction n with
  | zero => intro tr; simp [iterRefArg]
  | succ k ih =>
      intro tr
      obtain ⟨so, sm⟩ := s
      cases hO; cases hM
      simp only [iterRefArg, EventCallbackRefArg.invoke, traceRefArg]
      rw [ih]
      simp [List.replicate_succ]

theorem iterPtrArg_trace {P : Type} (s : EventCallbackPtrArg P) (o m : Nat) (value : Option Nat)
    (hO : s.m_object = some o) (hM : s.m_eventReceive = some m) :
    ∀ (n : Nat) (tr : List (Nat × Nat)),
      iterPtrArg traceTargetPtrArg value n (s, tr) = (s, tr ++ List.replicate n (o, m)) := by
  intro n
  induction n with
  | zero => intro tr; simp [iterPtrArg]
  | succ k ih =>
      intro tr
      obtain ⟨so, sm⟩ := s
      cases hO; cases hM
      simp only [iterPtrArg, EventCallbackPtrArg.invoke, traceTargetPtrArg]
      rw [ih]
      simp [List.replicate_succ]

/-- C1: For every slot variant, after `set` with a non-null object and
non-null method, each `invoke` performs exactly one dispatch, to exactly
that object and method: a single `invoke` equals one `call o m` step for
any dispatch semantics, and `n` successive `invoke` calls under the
recording semantics produce exactly `n` records `(o, m)`; binding a
no-argument slot to a counter-incrementing method and invoking three times
leaves the counter at 3. -/
theorem C1_invoke_calls_bound_target_exactly :
    (∀ (σ : Type) (call : Nat → Nat → σ → σ) (s : EventCallbackVoid) (o m : Nat) (w : σ),
        (s.set (some o) (some m)).invoke call w = (s.set (some o) (some m), call o m w))
    ∧ (∀ (s : EventCallbackVoid) (o m n : Nat),
        (iterVoid traceVoid n (s.set (some o) (some m), [])).2 = List.replicate n (o, m))
    ∧ (∀ (P : Type) (s : EventCallbackArg P) (o m n : Nat) (v : P),
        (iterArg traceArg v n (s.set (some o) (some m), [])).2 = List.replicate n (o, m))
    ∧ (∀ (P : Type) (s : EventCallbackRefArg P) (o m n valueLoc : Nat),
        (iterRefArg traceRefArg valueLoc n (s.set (some o) (some m), [])).2 =
          List.replicate n (o, m))
    ∧ (∀ (P : Type) (s : EventCallbackPtrArg P) (o m n : Nat) (pv : Option Nat),
        (iterPtrArg traceTargetPtrArg pv n (s.set (some o) (some m), [])).2 =
          List.replicate n (o, m))
    ∧ (iterVoid tickHandler 3 (EventCallbackVoid.set {} (some 7) (some 1), 0)).2 = 3 := by
  refine ⟨fun σ call s o m w => rfl, ?_, ?_, ?_, ?_, rfl⟩
  · intro s o m n
    rw [iterVoid_trace (s.set (some o) (some m)) o m rfl rfl n []]
    simp
  · intro P s o m n v
    rw [iterArg_trace (s.set (some o) (some m)) o m v rfl rfl n []]
    simp
  · intro P s o m n valueLoc
    rw [iterRefArg_trace (s.set (some o) (some m)) o m valueLoc rfl rfl n []]
    simp
  · intro P s o m n pv
    rw [iterPtrArg_trace (s.set (some o) (some m)) o m pv rfl rfl n []]
    simp

/-- C2: For every slot variant, `invoke` on a never-bound slot (both fields
still at their `nullptr` defaults) performs no dispatch under any
semantics, leaves the world unchanged, returns normally, and leaves the
slot state unchanged. -/
theorem C2_empty_invoke_no_op :
    (∀ (σ : Type) (call : Nat → Nat → σ → σ) (w : σ),
        ({} : EventCallbackVoid).invoke call w = ({}, w))
    ∧ (∀ (P σ : Type) (call : Nat → Nat → P → σ → σ) (v : P) (w : σ),
        ({} : EventCallbackArg P).invoke call v w = ({}, w))
    ∧ (∀ (P σ : Type) (call : Nat → Nat → Nat → σ → σ) (valueLoc : Nat) (w : σ),
        ({} : EventCallbackRefArg P).invoke call valueLoc w = ({}, w))
    ∧ (∀ (P σ : Type) (call : Nat → Nat → Option Nat → σ → σ) (pv : Option Nat) (w : σ),
        ({} : EventCallbackPtrArg P).invoke call pv w = ({}, w)) :=
  ⟨fun _ _ _ => rfl, fun _ _ _ _ _ => rfl, fun _ _ _ _ _ => rfl, fun _ _ _ _ _ => rfl⟩

/-! ## Frame helpers: `invoke` never writes the fields -/

theorem invoke_fst_void {σ : Type} (call : Nat → Nat → σ → σ)
    (s : EventCallbackVoid) (w : σ) : (s.invoke call w).1 = s := by
  obtain ⟨so, sm⟩ := s
  cases so <;> cases sm <;> rfl

theorem invoke_fst_arg {P σ : Type} (call : Nat → Nat → P → σ → σ)
    (s : EventCallbackArg P) (v : P) (w : σ) : (s.invoke call v w).1 = s := by
  obtain ⟨so, sm⟩ := s
  cases so <;> cases sm <;> rfl

theorem invoke_fst_refArg {P σ : Type} (call : Nat → Nat → Nat → σ → σ)
    (s : EventCallbackRefArg P) (valueLoc : Nat) (w : σ) :
    (s.invoke call valueLoc w).1 = s := by
  obtain ⟨so, sm⟩ := s
  cases so <;> cases sm <;> rfl

theorem invoke_fst_ptrArg {P σ : Type} (call : Nat → Nat → Option Nat → σ → σ)
    (s : EventCallbackPtrArg P) (pv : Option Nat) (w : σ) :
    (s.invoke call pv w).1 = s := by
  obtain ⟨so, sm⟩ := s
  cases so <;> cases sm <;> rfl

/-! ## Call-site operation sequences

One operation is either a `set` call (with arbitrary, possibly null,
pointer arguments — exactly what the C++ signatures accept) or an `invoke`
call (with the variant's argument shape). `run…` executes a list of
operations against a slot and a world, the way client code would. -/

inductive VoidOp where
  | doSet : Option Nat → Option Nat → VoidOp
  | doInvoke : VoidOp
deriving DecidableEq, Repr

def runVoid {σ : Type} (call : Nat → Nat → σ → σ) :
    List VoidOp → EventCallbackVoid × σ → EventCallbackVoid × σ
  | [], p => p
  | VoidOp.doSet oo mm :: ops, p => runVoid call ops (p.1.set oo mm, p.2)
  | VoidOp.doInvoke :: ops, p => runVoid call ops (p.1.invoke call p.2)

inductive ArgOp (P : Type) where
  | doSet : Option Nat → Option Nat → ArgOp P
  | doInvoke : P → ArgOp P
deriving DecidableEq, Repr

def runArg {P σ : Type} (call : Nat → Nat → P → σ → σ) :
    List (ArgOp P) → EventCallbackArg P × σ → EventCallbackArg P × σ
  | [], p => p
  | ArgOp.doSet oo mm :: ops, p => runArg call ops (p.1.set oo mm, p.2)
  | ArgOp.doInvoke v :: ops, p => runArg call ops (p.1.invoke call v p.2)

inductive RefArgOp where
  | doSet : Option Nat → Option Nat → RefArgOp
  | doInvoke : Nat → RefArgOp
deriving DecidableEq, Repr

def runRefArg {P σ : Type} (call : Nat → Nat → Nat → σ → σ) :
    List RefArgOp → EventCallbackRefArg P × σ → EventCallbackRefArg P × σ
  | [], p => p
  | RefArgOp.doSet oo mm :: ops, p => runRefArg call ops (p.1.set oo mm, p.2)
  | RefArgOp.doInvoke valueLoc :: ops, p => runRefArg call ops (p.1.invoke call valueLoc p.2)

inductive PtrArgOp where
  | doSet : Option Nat → Option Nat → PtrArgOp
  | doInvoke : Option Nat → PtrArgOp
deriving DecidableEq, Repr

def runPtrArg {P σ : Type} (call : Nat → Nat → Option Nat → σ → σ) :
    List PtrArgOp → EventCallbackPtrArg P × σ → EventCallbackPtrArg P × σ
  | [], p => p
  | PtrArgOp.doSet oo mm :: ops, p => runPtrArg call ops (p.1.set oo mm, p.2)
  | PtrArgOp.doInvoke pv :: ops, p => runPtrArg call ops (p.1.invoke call pv p.2)

/-! ## State predicates on the two stored fields -/

/-- The fields agree in null-ness: both unset or both set. -/
def alignedPair (oo mm : Option Nat) : Bool := oo.isSome == mm.isSome

/-- The empty state: both fields null (the initial state). -/
def slotEmpty (oo mm : Option Nat) : Bool := oo.isNone && mm.isNone

/-- The bound state: both fields non-null. -/
def slotBound (oo mm : Option Nat) : Bool := oo.isSome && mm.isSome

/-- The `set` arguments of this operation are both-null or both-non-null
(vacuously true of an `invoke` operation). -/
def VoidOp.alignedArgs : VoidOp → Bool
  | VoidOp.doSet oo mm => alignedPair oo mm
  | VoidOp.doInvoke => true

def ArgOp.alignedArgs {P : Type} : ArgOp P → Bool
  | ArgOp.doSet oo mm => alignedPair oo mm
  | ArgOp.doInvoke _ => true

def RefArgOp.alignedArgs : RefArgOp → Bool
  | RefArgOp.doSet oo mm => alignedPair oo mm
  | RefArgOp.doInvoke _ => true

def PtrArgOp.alignedArgs : PtrArgOp → Bool
  | PtrArgOp.doSet oo mm => alignedPair oo mm
  | PtrArgOp.doInvoke _ => true

/-- The `set` arguments of this operation are both non-null (vacuously
true of an `invoke` operation). -/
def VoidOp.nonNullArgs : VoidOp → Bool
  | VoidOp.doSet oo mm => oo.isSome && mm.isSome
  | VoidOp.doInvoke => true

def ArgOp.nonNullArgs {P : Type} : ArgOp P → Bool
  | ArgOp.doSet oo mm => oo.isSome && mm.isSome
  | ArgOp.doInvoke _ => true

def RefArgOp.nonNullArgs : RefArgOp → Bool
  | RefArgOp.doSet oo mm => oo.isSome && mm.isSome
  | RefArgOp.doInvoke _ => true

def PtrArgOp.nonNullArgs : PtrArgOp → Bool
  | PtrArgOp.doSet oo mm => oo.isSome && mm.isSome
  | PtrArgOp.doInvoke _ => true

/-! ## Field alignment along operation sequences -/

theorem runVoid_aligned {σ : Type} (call : Nat → Nat → σ → σ) :
    ∀ (ops : List VoidOp), ops.all VoidOp.alignedArgs = true →
    ∀ p : EventCallbackVoid × σ, alignedPair p.1.m_object p.1.m_eventReceive = true →
      alignedPair (runVoid call ops p).1.m_object (runVoid call ops p).1.m_eventReceive = true := by
  intro ops
  induction ops with
  | nil => intro _ p hp; exact hp
  | cons op rest ih =>
      intro h p hp
      simp only [List.all_cons, Bool.and_eq_true] at h
      obtain ⟨hop, hrest⟩ := h
      cases op with
      | doSet oo mm =>
          simp only [runVoid]
          exact ih hrest _ (by simpa [VoidOp.alignedArgs, EventCallbackVoid.set] using hop)
      | doInvoke =>
          simp only [runVoid]
          refine ih hrest _ ?_
          rw [invoke_fst_void]
          exact hp

theorem runArg_aligned {P σ : Type} (call : Nat → Nat → P → σ → σ) :
    ∀ (ops : List (ArgOp P)), ops.all ArgOp.alignedArgs = true →
    ∀ p : EventCallbackArg P × σ, alignedPair p.1.m_object p.1.m_eventReceive = true →
      alignedPair (runArg call ops p).1.m_object (runArg call ops p).1.m_eventReceive = true := by
  intro ops
  induction ops with
  | nil => intro _ p hp; exact hp
  | cons op rest ih =>
      intro h p hp
      simp only [List.all_cons, Bool.and_eq_true] at h
      obtain ⟨hop, hrest⟩ := h
      cases op with
      | doSet oo mm =>
          simp only [runArg]
          exact ih hrest _ (by simpa [ArgOp.alignedArgs, EventCallbackArg.set] using hop)
      | doInvoke v =>
          simp only [runArg]
          refine ih hrest _ ?_
          rw [invoke_fst_arg]
          exact hp

theorem runRefArg_aligned {P σ : Type} (call : Nat → Nat → Nat → σ → σ) :
    ∀ (ops : List RefArgOp), ops.all RefArgOp.alignedArgs = true →
    ∀ p : EventCallbackRefArg P × σ, alignedPair p.1.m_object p.1.m_eventReceive = true →
      alignedPair (runRefArg call ops p).1.m_object (runRefArg call ops p).1.m_eventReceive = true := by
  intro ops
  induction ops with
  | nil => intro _ p hp; exact hp
  | cons op rest ih =>
      intro h p hp
      simp only [List.all_cons, Bool.and_eq_true] at h
      obtain ⟨hop, hrest⟩ := h
      cases op with
      | doSet oo mm =>
          simp only [runRefArg]
          exact ih hrest _ (by simpa [RefArgOp.alignedArgs, EventCallbackRefArg.set] using hop)
      | doInvoke valueLoc =>
          simp only [runRefArg]
          refine ih hrest _ ?_
          rw [invoke_fst_refArg]
          exact hp

theorem runPtrArg_aligned {P σ : Type} (call : Nat → Nat → Option Nat → σ → σ) :
    ∀ (ops : List PtrArgOp), ops.all PtrArgOp.alignedArgs = true →
    ∀ p : EventCallbackPtrArg P × σ, alignedPair p.1.m_object p.1.m_eventReceive = true →
      alignedPair (runPtrArg call ops p).1.m_object (runPtrArg call ops p).1.m_eventReceive = true := by
  intro ops
  induction ops with
  | nil => intro _ p hp; exact hp
  | cons op rest ih =>
      intro h p hp
      simp only [List.all_cons, Bool.and_eq_true] at h
      obtain ⟨hop, hrest⟩ := h
      cases op with
      | doSet oo mm =>
          simp only [runPtrArg]
          exact ih hrest _ (by simpa [PtrArgOp.alignedArgs, EventCallbackPtrArg.set] using hop)
      | doInvoke pv =>
          simp only [runPtrArg]
          refine ih hrest _ ?_
          rw [invoke_fst_ptrArg]
          exact hp

/-- C3 counterexample: the state reached from the initial slot by the single
operation `set(nullptr, method)` — accepted by the C++ signature, since the
object argument is an ordinary pointer — has a null `m_object` and a
non-null `m_eventReceive`, so the two fields are neither both unset nor
both set. -/
theorem C3_counterexample_mixed_null_set :
    ¬ (((runVoid (fun _ _ u => u) [VoidOp.doSet none (some 1)] ({}, ())).1.m_object = none
          ∧ (runVoid (fun _ _ u => u) [VoidOp.doSet none (some 1)] ({}, ())).1.m_eventReceive = none)
        ∨ ((runVoid (fun _ _ u => u) [VoidOp.doSet none (some 1)] ({}, ())).1.m_object ≠ none
          ∧ (runVoid (fun _ _ u => u) [VoidOp.doSet none (some 1)] ({}, ())).1.m_eventReceive ≠ none)) := by
  decide

/-- C3 (amended): for every slot variant, over any sequence of `set` and
`invoke` calls in which every `set` passes arguments that are both null or
both non-null, every reachable state has its two stored fields both unset
or both set. (The unrestricted claim fails: a `set` with a null object and
a non-null method stores a mixed state.) -/
theorem C3_fields_aligned_under_aligned_sets :
    (∀ (σ : Type) (call : Nat → Nat → σ → σ) (ops : List VoidOp) (w : σ),
        ops.all VoidOp.alignedArgs = true →
        alignedPair (runVoid call ops ({}, w)).1.m_object
          (runVoid call ops ({}, w)).1.m_eventReceive = true)
    ∧ (∀ (P σ : Type) (call : Nat → Nat → P → σ → σ) (ops : List (ArgOp P)) (w : σ),
        ops.all ArgOp.alignedArgs = true →
        alignedPair (runArg call ops ({}, w)).1.m_object
          (runArg call ops ({}, w)).1.m_eventReceive = true)
    ∧ (∀ (P σ : Type) (call : Nat → Nat → Nat → σ → σ) (ops : List RefArgOp) (w : σ),
        ops.all RefArgOp.alignedArgs = true →
        alignedPair (runRefArg (P := P) call ops ({}, w)).1.m_object
          (runRefArg (P := P) call ops ({}, w)).1.m_eventReceive = true)
    ∧ (∀ (P σ : Type) (call : Nat → Nat → Option Nat → σ → σ) (ops : List PtrArgOp) (w : σ),
        ops.all PtrArgOp.alignedArgs = true →
        alignedPair (runPtrArg (P := P) call ops ({}, w)).1.m_object
          (runPtrArg (P := P) call ops ({}, w)).1.m_eventReceive = true) := by
  refine ⟨?_, ?_, ?_, ?_⟩
  · intro σ call ops w h
    exact runVoid_aligned call ops h ({}, w) rfl
  · intro P σ call ops w h
    exact runArg_aligned call ops h ({}, w) rfl
  · intro P σ call ops w h
    exact runRefArg_aligned call ops h ({}, w) rfl
  · intro P σ call ops w h
    exact runPtrArg_aligned call ops h ({}, w) rfl

/-- Witness for C3 (amended), at the concrete sequence
`[set(obj 1, method 2), invoke]` on the no-argument variant. -/
theorem C3_fields_aligned_witness :
    [VoidOp.doSet (some 1) (some 2), VoidOp.doInvoke].all VoidOp.alignedArgs = true
    ∧ alignedPair
        (runVoid (fun _ _ u => u) [VoidOp.doSet (some 1) (some 2), VoidOp.doInvoke] ({}, ())).1.m_object
        (runVoid (fun _ _ u => u) [VoidOp.doSet (some 1) (some 2), VoidOp.doInvoke] ({}, ())).1.m_eventReceive
        = true :=
  ⟨by decide,
   C3_fields_aligned_under_aligned_sets.1 Unit (fun _ _ u => u)
     [VoidOp.doSet (some 1) (some 2), VoidOp.doInvoke] () (by decide)⟩

/-! ## Empty/bound state dynamics along operation sequences -/

theorem runVoid_bound_preserved {σ : Type} (call : Nat → Nat → σ → σ) :
    ∀ (ops : List VoidOp), ops.all VoidOp.nonNullArgs = true →
    ∀ p : EventCallbackVoid × σ, slotBound p.1.m_object p.1.m_eventReceive = true →
      slotBound (runVoid call ops p).1.m_object (runVoid call ops p).1.m_eventReceive = true := by
  intro ops
  induction ops with
  | nil => intro _ p hp; exact hp
  | cons op rest ih =>
      intro h p hp
      simp only [List.all_cons, Bool.and_eq_true] at h
      obtain ⟨hop, hrest⟩ := h
      cases op with
      | doSet oo mm =>
          simp only [runVoid]
          exact ih hrest _ (by simpa [VoidOp.nonNullArgs, slotBound, EventCallbackVoid.set] using hop)
      | doInvoke =>
          simp only [runVoid]
          refine ih hrest _ ?_
          rw [invoke_fst_void]
          exact hp

theorem runVoid_empty_or_bound {σ : Type} (call : Nat → Nat → σ → σ) :
    ∀ (ops : List VoidOp), ops.all VoidOp.nonNullArgs = true →
    ∀ p : EventCallbackVoid × σ,
      (slotEmpty p.1.m_object p.1.m_eventReceive = true
        ∨ slotBound p.1.m_object p.1.m_eventReceive = true) →
      (slotEmpty (runVoid call ops p).1.m_object (runVoid call ops p).1.m_eventReceive = true
        ∨ slotBound (runVoid call ops p).1.m_object (runVoid call ops p).1.m_eventReceive = true) := by
  intro ops
  induction ops with
  | nil => intro _ p hp; exact hp
  | cons op rest ih =>
      intro h p hp
      simp only [List.all_cons, Bool.and_eq_true] at h
      obtain ⟨hop, hrest⟩ := h
      cases op with
      | doSet oo mm =>
          simp only [runVoid]
          refine ih hrest _ (Or.inr ?_)
          simpa [VoidOp.nonNullArgs, slotBound, EventCallbackVoid.set] using hop
      | doInvoke =>
          simp only [runVoid]
          refine ih hrest _ ?_
          rw [invoke_fst_void]
          exact hp

theorem runArg_bound_preserved {P σ : Type} (call : Nat → Nat → P → σ → σ) :
    ∀ (ops : List (ArgOp P)), ops.all ArgOp.nonNullArgs = true →
    ∀ p : EventCallbackArg P × σ, slotBound p.1.m_object p.1.m_eventReceive = true →
      slotBound (runArg call ops p).1.m_object (runArg call ops p).1.m_eventReceive = true := by
  intro ops
  induction ops with
  | nil => intro _ p hp; exact hp
  | cons op rest ih =>
      intro h p hp
      simp only [List.all_cons, Bool.and_eq_true] at h
      obtain ⟨hop, hrest⟩ := h
      cases op with
      | doSet oo mm =>
          simp only [runArg]
          exact ih hrest _ (by simpa [ArgOp.nonNullArgs, slotBound, EventCallbackArg.set] using hop)
      | doInvoke v =>
          simp only [runArg]
          refine ih hrest _ ?_
          rw [invoke_fst_arg]
          exact hp

theorem runArg_empty_or_bound {P σ : Type} (call : Nat → Nat → P → σ → σ) :
    ∀ (ops : List (ArgOp P)), ops.all ArgOp.nonNullArgs = true →
    ∀ p : EventCallbackArg P × σ,
      (slotEmpty p.1.m_object p.1.m_eventReceive = true
        ∨ slotBound p.1.m_object p.1.m_eventReceive = true) →
      (slotEmpty (runArg call ops p).1.m_object (runArg call ops p).1.m_eventReceive = true
        ∨ slotBound (runArg call ops p).1.m_object (runArg call ops p).1.m_eventReceive = true) := by
  intro ops
  induction ops with
  | nil => intro _ p hp; exact hp
  | cons op rest ih =>
      intro h p hp
      simp only [List.all_cons, Bool.and_eq_true] at h
      obtain ⟨hop, hrest⟩ := h
      cases op with
      | doSet oo mm =>
          simp only [runArg]
          refine ih hrest _ (Or.inr ?_)
          simpa [ArgOp.nonNullArgs, slotBound, EventCallbackArg.set] using hop
      | doInvoke v =>
          simp only [runArg]
          refine ih hrest _ ?_
          rw [invoke_fst_arg]
          exact hp

theorem runRefArg_bound_preserved {P σ : Type} (call : Nat → Nat → Nat → σ → σ) :
    ∀ (ops : List RefArgOp), ops.all RefArgOp.nonNullArgs = true →
    ∀ p : EventCallbackRefArg P × σ, slotBound p.1.m_object p.1.m_eventReceive = true →
      slotBound (runRefArg call ops p).1.m_object (runRefArg call ops p).1.m_eventReceive = true := by
  intro ops
  induction ops with
  | nil => intro _ p hp; exact hp
  | cons op rest ih =>
      intro h p hp
      simp only [List.all_cons, Bool.and_eq_true] at h
      obtain ⟨hop, hrest⟩ := h
      cases op with
      | doSet oo mm =>
          simp only [runRefArg]
          exact ih hrest _ (by simpa [RefArgOp.nonNullArgs, slotBound, EventCallbackRefArg.set] using hop)
      | doInvoke valueLoc =>
          simp only [runRefArg]
          refine ih hrest _ ?_
          rw [invoke_fst_refArg]
          exact hp

theorem runRefArg_empty_or_bound {P σ : Type} (call : Nat → Nat → Nat → σ → σ) :
    ∀ (ops : List RefArgOp), ops.all RefArgOp.nonNullArgs = true →
    ∀ p : EventCallbackRefArg P × σ,
      (slotEmpty p.1.m_object p.1.m_eventReceive = true
        ∨ slotBound p.1.m_object p.1.m_eventReceive = true) →
      (slotEmpty (runRefArg call ops p).1.m_object (runRefArg call ops p).1.m_eventReceive = true
        ∨ slotBound (runRefArg call ops p).1.m_object (runRefArg call ops p).1.m_eventReceive = true) := by
  intro ops
  induction ops with
  | nil => intro _ p hp; exact hp
  | cons op rest ih =>
      intro h p hp
      simp only [List.all_cons, Bool.and_eq_true] at h
      obtain ⟨hop, hrest⟩ := h
      cases op with
      | doSet oo mm =>
          simp only [runRefArg]
          refine ih hrest _ (Or.inr ?_)
          simpa [RefArgOp.nonNullArgs, slotBound, EventCallbackRefArg.set] using hop
      | doInvoke valueLoc =>
          simp only [runRefArg]
          refine ih hrest _ ?_
          rw [invoke_fst_refArg]
          exact hp

theorem runPtrArg_bound_preserved {P σ : Type} (call : Nat → Nat → Option Nat → σ → σ) :
    ∀ (ops : List PtrArgOp), ops.all PtrArgOp.nonNullArgs = true →
    ∀ p : EventCallbackPtrArg P × σ, slotBound p.1.m_object p.1.m_eventReceive = true →
      slotBound (runPtrArg call ops p).1.m_object (runPtrArg call ops p).1.m_eventReceive = true := by
  intro ops
  induction ops with
  | nil => intro _ p hp; exact hp
  | cons op rest ih =>
      intro h p hp
      simp only [List.all_cons, Bool.and_eq_true] at h
      obtain ⟨hop, hrest⟩ := h
      cases op with
      | doSet oo mm =>
          simp only [runPtrArg]
          exact ih hrest _ (by simpa [PtrArgOp.nonNullArgs, slotBound, EventCallbackPtrArg.set] using hop)
      | doInvoke pv =>
          simp only [runPtrArg]
          refine ih hrest _ ?_
          rw [invoke_fst_ptrArg]
          exact hp

theorem runPtrArg_empty_or_bound {P σ : Type} (call : Nat → Nat → Option Nat → σ → σ) :
    ∀ (ops : List PtrArgOp), ops.all PtrArgOp.nonNullArgs = true →
    ∀ p : EventCallbackPtrArg P × σ,
      (slotEmpty p.1.m_object p.1.m_eventReceive = true
        ∨ slotBound p.1.m_object p.1.m_eventReceive = true) →
      (slotEmpty (runPtrArg call ops p).1.m_object (runPtrArg call ops p).1.m_eventReceive = true
        ∨ slotBound (runPtrArg call ops p).1.m_object (runPtrArg call ops p).1.m_eventReceive = true) := by
  intro ops
  induction ops with
  | nil => intro _ p hp; exact hp
  | cons op rest ih =>
      intro h p hp
      simp only [List.all_cons, Bool.and_eq_true] at h
      obtain ⟨hop, hrest⟩ := h
      cases op with
      | doSet oo mm =>
          simp only [runPtrArg]
          refine ih hrest _ (Or.inr ?_)
          simpa [PtrArgOp.nonNullArgs, slotBound, EventCallbackPtrArg.set] using hop
      | doInvoke pv =>
          simp only [runPtrArg]
          refine ih hrest _ ?_
          rw [invoke_fst_ptrArg]
          exact hp

/-- C9 counterexample: on the no-argument variant, `set(obj 1, method 1)`
puts the slot in the bound state, and a further `set(nullptr, nullptr)` —
accepted by the C++ signature — returns it to the initial empty state, so a
sequence of operations does transition a bound slot back to empty. -/
theorem C9_counterexample_set_null_empties :
    slotBound (runVoid (fun _ _ u => u) [VoidOp.doSet (some 1) (some 1)] ({}, ())).1.m_object
      (runVoid (fun _ _ u => u) [VoidOp.doSet (some 1) (some 1)] ({}, ())).1.m_eventReceive = true
    ∧ (runVoid (fun _ _ u => u)
        [VoidOp.doSet (some 1) (some 1), VoidOp.doSet none none] ({}, ())).1
      = ({} : EventCallbackVoid) := by
  constructor
  · decide
  · decide

/-- C9 (amended): for every slot variant, provided every `set` call passes a
non-null object and a non-null method, each slot has exactly the two states
empty (initial: both fields null) and bound (both fields non-null) — every
state reachable from the initial slot is one of the two — and no sequence
of such operations transitions a bound slot back to empty: from any bound
state the slot stays bound. (The unrestricted claim fails: `set` with null
arguments empties a bound slot.) -/
theorem C9_two_states_under_non_null_sets :
    (∀ (σ : Type) (call : Nat → Nat → σ → σ) (ops : List VoidOp) (w : σ),
        ops.all VoidOp.nonNullArgs = true →
        (slotEmpty (runVoid call ops ({}, w)).1.m_object
            (runVoid call ops ({}, w)).1.m_eventReceive = true
          ∨ slotBound (runVoid call ops ({}, w)).1.m_object
            (runVoid call ops ({}, w)).1.m_eventReceive = true))
    ∧ (∀ (σ : Type) (call : Nat → Nat → σ → σ) (ops : List VoidOp) (w : σ)
        (s : EventCallbackVoid),
        ops.all VoidOp.nonNullArgs = true →
        slotBound s.m_object s.m_eventReceive = true →
        slotBound (runVoid call ops (s, w)).1.m_object
          (runVoid call ops (s, w)).1.m_eventReceive = true)
    ∧ (∀ (P σ : Type) (call : Nat → Nat → P → σ → σ) (ops : List (ArgOp P)) (w : σ),
        ops.all ArgOp.nonNullArgs = true →
        (slotEmpty (runArg call ops ({}, w)).1.m_object
            (runArg call ops ({}, w)).1.m_eventReceive = true
          ∨ slotBound (runArg call ops ({}, w)).1.m_object
            (runArg call ops ({}, w)).1.m_eventReceive = true))
    ∧ (∀ (P σ : Type) (call : Nat → Nat → P → σ → σ) (ops : List (ArgOp P)) (w : σ)
        (s : EventCallbackArg P),
        ops.all ArgOp.nonNullArgs = true →
        slotBound s.m_object s.m_eventReceive = true →
        slotBound (runArg call ops (s, w)).1.m_object
          (runArg call ops (s, w)).1.m_eventReceive = true)
    ∧ (∀ (P σ : Type) (call : Nat → Nat → Nat → σ → σ) (ops : List RefArgOp) (w : σ),
        ops.all RefArgOp.nonNullArgs = true →
        (slotEmpty (runRefArg (P := P) call ops ({}, w)).1.m_object
            (runRefArg (P := P) call ops ({}, w)).1.m_eventReceive = true
          ∨ slotBound (runRefArg (P := P) call ops ({}, w)).1.m_object
            (runRefArg (P := P) call ops ({}, w)).1.m_eventReceive = true))
    ∧ (∀ (P σ : Type) (call : Nat → Nat → Nat → σ → σ) (ops : List RefArgOp) (w : σ)
        (s : EventCallbackRefArg P),
        ops.all RefArgOp.nonNullArgs = true →
        slotBound s.m_object s.m_eventReceive = true →
        slotBound (runRefArg call ops (s, w)).1.m_object
          (runRefArg call ops (s, w)).1.m_eventReceive = true)
    ∧ (∀ (P σ : Type) (call : Nat → Nat → Option Nat → σ → σ) (ops : List PtrArgOp) (w : σ),
        ops.all PtrArgOp.nonNullArgs = true →
        (slotEmpty (runPtrArg (P := P) call ops ({}, w)).1.m_object
            (runPtrArg (P := P) call ops ({}, w)).1.m_eventReceive = true
          ∨ slotBound (runPtrArg (P := P) call ops ({}, w)).1.m_object
            (runPtrArg (P := P) call ops ({}, w)).1.m_eventReceive = true))
    ∧ (∀ (P σ : Type) (call : Nat → Nat → Option Nat → σ → σ) (ops : List PtrArgOp) (w : σ)
        (s : EventCallbackPtrArg P),
        ops.all PtrArgOp.nonNullArgs = true →
        slotBound s.m_object s.m_eventReceive = true →
        slotBound (runPtrArg call ops (s, w)).1.m_object
          (runPtrArg call ops (s, w)).1.m_eventReceive = true) := by
  refine ⟨?_, ?_, ?_, ?_, ?_, ?_, ?_, ?_⟩
  · intro σ call ops w h
    exact runVoid_empty_or_bound call ops h ({}, w) (Or.inl rfl)
  · intro σ call ops w s h hb
    exact runVoid_bound_preserved call ops h (s, w) hb
  · intro P σ call ops w h
    exact runArg_empty_or_bound call ops h ({}, w) (Or.inl rfl)
  · intro P σ call ops w s h hb
    exact runArg_bound_preserved call ops h (s, w) hb
  · intro P σ call ops w h
    exact runRefArg_empty_or_bound call ops h ({}, w) (Or.inl rfl)
  · intro P σ call ops w s h hb
    exact runRefArg_bound_preserved call ops h (s, w) hb
  · intro P σ call ops w h
    exact runPtrArg_empty_or_bound call ops h ({}, w) (Or.inl rfl)
  · intro P σ call ops w s h hb
    exact runPtrArg_bound_preserved call ops h (s, w) hb

/-- Witness for C9 (amended), at the concrete sequence
`[set(obj 1, method 2), invoke]` on the no-argument variant, from the
initial slot and from a bound slot. -/
theorem C9_two_states_witness :
    [VoidOp.doSet (some 1) (some 2), VoidOp.doInvoke].all VoidOp.nonNullArgs = true
    ∧ slotBound (EventCallbackVoid.set {} (some 3) (some 4)).m_object
        (EventCallbackVoid.set {} (some 3) (some 4)).m_eventReceive = true
    ∧ (slotEmpty
        (runVoid (fun _ _ u => u)
          [VoidOp.doSet (some 1) (some 2), VoidOp.doInvoke] ({}, ())).1.m_object
        (runVoid (fun _ _ u => u)
          [VoidOp.doSet (some 1) (some 2), VoidOp.doInvoke] ({}, ())).1.m_eventReceive = true
      ∨ slotBound
        (runVoid (fun _ _ u => u)
          [VoidOp.doSet (some 1) (some 2), VoidOp.doInvoke] ({}, ())).1.m_object
        (runVoid (fun _ _ u => u)
          [VoidOp.doSet (some 1) (some 2), VoidOp.doInvoke] ({}, ())).1.m_eventReceive = true)
    ∧ slotBound
        (runVoid (fun _ _ u => u) [VoidOp.doSet (some 1) (some 2), VoidOp.doInvoke]
          (EventCallbackVoid.set {} (some 3) (some 4), ())).1.m_object
        (runVoid (fun _ _ u => u) [VoidOp.doSet (some 1) (some 2), VoidOp.doInvoke]
          (EventCallbackVoid.set {} (some 3) (some 4), ())).1.m_eventReceive = true :=
  ⟨by decide, by decide,
   C9_two_states_under_non_null_sets.1 Unit (fun _ _ u => u)
     [VoidOp.doSet (some 1) (some 2), VoidOp.doInvoke] () (by decide),
   C9_two_states_under_non_null_sets.2.1 Unit (fun _ _ u => u)
     [VoidOp.doSet (some 1) (some 2), VoidOp.doInvoke] ()
     (EventCallbackVoid.set {} (some 3) (some 4)) (by decide) (by decide)⟩

/-! ## Iterated invocation preserves the slot -/

theorem iterVoid_fst {σ : Type} (call : Nat → Nat → σ → σ) :
    ∀ (n : Nat) (p : EventCallbackVoid × σ), (iterVoid call n p).1 = p.1 := by
  intro n
  induction n with
  | zero => intro p; rfl
  | succ k ih =>
      intro p
      simp only [iterVoid]
      rw [ih]
      exact invoke_fst_void call p.1 p.2

theorem iterArg_fst {P σ : Type} (call : Nat → Nat → P → σ → σ) (v : P) :
    ∀ (n : Nat) (p : EventCallbackArg P × σ), (iterArg call v n p).1 = p.1 := by
  intro n
  induction n with
  | zero => intro p; rfl
  | succ k ih =>
      intro p
      simp only [iterArg]
      rw [ih]
      exact invoke_fst_arg call p.1 v p.2

theorem iterRefArg_fst {P σ : Type} (call : Nat → Nat → Nat → σ → σ) (valueLoc : Nat) :
    ∀ (n : Nat) (p : EventCallbackRefArg P × σ), (iterRefArg call valueLoc n p).1 = p.1 := by
  intro n
  induction n with
  | zero => intro p; rfl
  | succ k ih =>
      intro p
      simp only [iterRefArg]
      rw [ih]
      exact invoke_fst_refArg call p.1 valueLoc p.2

theorem iterPtrArg_fst {P σ : Type} (call : Nat → Nat → Option Nat → σ → σ) (pv : Option Nat) :
    ∀ (n : Nat) (p : EventCallbackPtrArg P × σ), (iterPtrArg call pv n p).1 = p.1 := by
  intro n
  induction n with
  | zero => intro p; rfl
  | succ k ih =>
      intro p
      simp only [iterPtrArg]
      rw [ih]
      exact invoke_fst_ptrArg call p.1 pv p.2

/-- C4: For every slot variant, a second `set` call replaces the prior
binding entirely — the resulting slot is exactly what a single `set` with
the new arguments produces — and after rebinding to a different non-null
pair, `n` invocations under the recording semantics dispatch only to the
new pair: the record is `n` copies of the new pair and, when the old pair
differs, the old pair appears nowhere in it. -/
theorem C4_rebind_replaces_prior_binding :
    (∀ (s : EventCallbackVoid) (oo mm oo2 mm2 : Option Nat),
        (s.set oo mm).set oo2 mm2 = s.set oo2 mm2)
    ∧ (∀ (s : EventCallbackVoid) (o1 m1 o2 m2 n : Nat),
        (iterVoid traceVoid n ((s.set (some o1) (some m1)).set (some o2) (some m2), [])).2
          = List.replicate n (o2, m2)
        ∧ ((o1, m1) ≠ (o2, m2) →
            (o1, m1) ∉
              (iterVoid traceVoid n
                ((s.set (some o1) (some m1)).set (some o2) (some m2), [])).2))
    ∧ (∀ (P : Type) (s : EventCallbackArg P) (oo mm oo2 mm2 : Option Nat),
        (s.set oo mm).set oo2 mm2 = s.set oo2 mm2)
    ∧ (∀ (P : Type) (s : EventCallbackArg P) (v : P) (o1 m1 o2 m2 n : Nat),
        (iterArg traceArg v n ((s.set (some o1) (some m1)).set (some o2) (some m2), [])).2
          = List.replicate n (o2, m2)
        ∧ ((o1, m1) ≠ (o2, m2) →
            (o1, m1) ∉
              (iterArg traceArg v n
                ((s.set (some o1) (some m1)).set (some o2) (some m2), [])).2))
    ∧ (∀ (P : Type) (s : EventCallbackRefArg P) (oo mm oo2 mm2 : Option Nat),
        (s.set oo mm).set oo2 mm2 = s.set oo2 mm2)
    ∧ (∀ (P : Type) (s : EventCallbackRefArg P) (valueLoc : Nat) (o1 m1 o2 m2 n : Nat),
        (iterRefArg traceRefArg valueLoc n
            ((s.set (some o1) (some m1)).set (some o2) (some m2), [])).2
          = List.replicate n (o2, m2)
        ∧ ((o1, m1) ≠ (o2, m2) →
            (o1, m1) ∉
              (iterRefArg traceRefArg valueLoc n
                ((s.set (some o1) (some m1)).set (some o2) (some m2), [])).2))
    ∧ (∀ (P : Type) (s : EventCallbackPtrArg P) (oo mm oo2 mm2 : Option Nat),
        (s.set oo mm).set oo2 mm2 = s.set oo2 mm2)
    ∧ (∀ (P : Type) (s : EventCallbackPtrArg P) (pv : Option Nat) (o1 m1 o2 m2 n : Nat),
        (iterPtrArg traceTargetPtrArg pv n
            ((s.set (some o1) (some m1)).set (some o2) (some m2), [])).2
          = List.replicate n (o2, m2)
        ∧ ((o1, m1) ≠ (o2, m2) →
            (o1, m1) ∉
              (iterPtrArg traceTargetPtrArg pv n
                ((s.set (some o1) (some m1)).set (some o2) (some m2), [])).2)) := by
  refine ⟨fun s oo mm oo2 mm2 => rfl, ?_, fun P s oo mm oo2 mm2 => rfl, ?_,
    fun P s oo mm oo2 mm2 => rfl, ?_, fun P s oo mm oo2 mm2 => rfl, ?_⟩
  · intro s o1 m1 o2 m2 n
    have htr := iterVoid_trace ((s.set (some o1) (some m1)).set (some o2) (some m2))
      o2 m2 rfl rfl n []
    rw [htr]
    refine ⟨by simp, ?_⟩
    intro hne hmem
    simp only [List.nil_append] at hmem
    exact hne (List.eq_of_mem_replicate hmem)
  · intro P s v o1 m1 o2 m2 n
    have htr := iterArg_trace ((s.set (some o1) (some m1)).set (some o2) (some m2))
      o2 m2 v rfl rfl n []
    rw [htr]
    refine ⟨by simp, ?_⟩
    intro hne hmem
    simp only [List.nil_append] at hmem
    exact hne (List.eq_of_mem_replicate hmem)
  · intro P s valueLoc o1 m1 o2 m2 n
    have htr := iterRefArg_trace ((s.set (some o1) (some m1)).set (some o2) (some m2))
      o2 m2 valueLoc rfl rfl n []
    rw [htr]
    refine ⟨by simp, ?_⟩
    intro hne hmem
    simp only [List.nil_append] at hmem
    exact hne (List.eq_of_mem_replicate hmem)
  · intro P s pv o1 m1 o2 m2 n
    have htr := iterPtrArg_trace ((s.set (some o1) (some m1)).set (some o2) (some m2))
      o2 m2 pv rfl rfl n []
    rw [htr]
    refine ⟨by simp, ?_⟩
    intro hne hmem
    simp only [List.nil_append] at hmem
    exact hne (List.eq_of_mem_replicate hmem)

/-- Witness for C4 at a concrete rebinding on the no-argument variant:
rebind from `(1, 1)` to `(2, 2)` and invoke once; the record is `[(2, 2)]`
and `(1, 1)` is not in it. -/
theorem C4_rebind_witness :
    (1, 1) ≠ (2, 2)
    ∧ (iterVoid traceVoid 1
        ((EventCallbackVoid.set {} (some 1) (some 1)).set (some 2) (some 2), [])).2
      = List.replicate 1 (2, 2)
    ∧ (1, 1) ∉
        (iterVoid traceVoid 1
          ((EventCallbackVoid.set {} (some 1) (some 1)).set (some 2) (some 2), [])).2 :=
  ⟨by decide,
   (C4_rebind_replaces_prior_binding.2.1 {} 1 1 2 2 1).1,
   (C4_rebind_replaces_prior_binding.2.1 {} 1 1 2 2 1).2 (by decide)⟩

/-- C8: For every slot variant, in every slot state and under every
dispatch semantics, `invoke` returns the slot with exactly the binding it
had — it never clears or alters `m_object` or `m_eventReceive` — and hence
the binding is still intact after arbitrarily many invocations. -/
theorem C8_invoke_never_clears_binding :
    (∀ (σ : Type) (call : Nat → Nat → σ → σ) (s : EventCallbackVoid) (w : σ),
        (s.invoke call w).1 = s)
    ∧ (∀ (σ : Type) (call : Nat → Nat → σ → σ) (s : EventCallbackVoid) (w : σ) (n : Nat),
        (iterVoid call n (s, w)).1 = s)
    ∧ (∀ (P σ : Type) (call : Nat → Nat → P → σ → σ) (s : EventCallbackArg P) (v : P) (w : σ),
        (s.invoke call v w).1 = s)
    ∧ (∀ (P σ : Type) (call : Nat → Nat → P → σ → σ) (s : EventCallbackArg P) (v : P) (w : σ)
        (n : Nat), (iterArg call v n (s, w)).1 = s)
    ∧ (∀ (P σ : Type) (call : Nat → Nat → Nat → σ → σ) (s : EventCallbackRefArg P)
        (valueLoc : Nat) (w : σ), (s.invoke call valueLoc w).1 = s)
    ∧ (∀ (P σ : Type) (call : Nat → Nat → Nat → σ → σ) (s : EventCallbackRefArg P)
        (valueLoc : Nat) (w : σ) (n : Nat), (iterRefArg call valueLoc n (s, w)).1 = s)
    ∧ (∀ (P σ : Type) (call : Nat → Nat → Option Nat → σ → σ) (s : EventCallbackPtrArg P)
        (pv : Option Nat) (w : σ), (s.invoke call pv w).1 = s)
    ∧ (∀ (P σ : Type) (call : Nat → Nat → Option Nat → σ → σ) (s : EventCallbackPtrArg P)
        (pv : Option Nat) (w : σ) (n : Nat), (iterPtrArg call pv n (s, w)).1 = s) := by
  refine ⟨?_, ?_, ?_, ?_, ?_, ?_, ?_, ?_⟩
  · intro σ call s w
    exact invoke_fst_void call s w
  · intro σ call s w n
    exact iterVoid_fst call n (s, w)
  · intro P σ call s v w
    exact invoke_fst_arg call s v w
  · intro P σ call s v w n
    exact iterArg_fst call v n (s, w)
  · intro P σ call s valueLoc w
    exact invoke_fst_refArg call s valueLoc w
  · intro P σ call s valueLoc w n
    exact iterRefArg_fst call valueLoc n (s, w)
  · intro P σ call s pv w
    exact invoke_fst_ptrArg call s pv w
  · intro P σ call s pv w n
    exact iterPtrArg_fst call pv n (s, w)

/-! ## Null-guard helpers: `invoke` checks the stored fields only -/

theorem invoke_null_guard_void {σ : Type} (call : Nat → Nat → σ → σ)
    (s : EventCallbackVoid) (w : σ)
    (h : s.m_object = none ∨ s.m_eventReceive = none) :
    s.invoke call w = (s, w) := by
  obtain ⟨so, sm⟩ := s
  cases so <;> cases sm <;> simp_all [EventCallbackVoid.invoke]

theorem invoke_null_guard_arg {P σ : Type} (call : Nat → Nat → P → σ → σ)
    (s : EventCallbackArg P) (v : P) (w : σ)
    (h : s.m_object = none ∨ s.m_eventReceive = none) :
    s.invoke call v w = (s, w) := by
  obtain ⟨so, sm⟩ := s
  cases so <;> cases sm <;> simp_all [EventCallbackArg.invoke]

theorem invoke_null_guard_refArg {P σ : Type} (call : Nat → Nat → Nat → σ → σ)
    (s : EventCallbackRefArg P) (valueLoc : Nat) (w : σ)
    (h : s.m_object = none ∨ s.m_eventReceive = none) :
    s.invoke call valueLoc w = (s, w) := by
  obtain ⟨so, sm⟩ := s
  cases so <;> cases sm <;> simp_all [EventCallbackRefArg.invoke]

theorem invoke_null_guard_ptrArg {P σ : Type}
    (call : Nat → Nat → Option Nat → σ → σ)
    (s : EventCallbackPtrArg P) (pv : Option Nat) (w : σ)
    (h : s.m_object = none ∨ s.m_eventReceive = none) :
    s.invoke call pv w = (s, w) := by
  obtain ⟨so, sm⟩ := s
  cases so <;> cases sm <;> simp_all [EventCallbackPtrArg.invoke]

/-- C10: For every slot variant, `set` accepts null pointer arguments and
stores exactly what it is given (each field equals the corresponding
argument, null or not), and `invoke` is a silent no-op whenever either
stored field is null — the guard tests the stored fields themselves,
regardless of how they came to be set. -/
theorem C10_null_set_stored_and_invoke_guard :
    (∀ (s : EventCallbackVoid) (oo mm : Option Nat),
        (s.set oo mm).m_object = oo ∧ (s.set oo mm).m_eventReceive = mm)
    ∧ (∀ (P : Type) (s : EventCallbackArg P) (oo mm : Option Nat),
        (s.set oo mm).m_object = oo ∧ (s.set oo mm).m_eventReceive = mm)
    ∧ (∀ (P : Type) (s : EventCallbackRefArg P) (oo mm : Option Nat),
        (s.set oo mm).m_object = oo ∧ (s.set oo mm).m_eventReceive = mm)
    ∧ (∀ (P : Type) (s : EventCallbackPtrArg P) (oo mm : Option Nat),
        (s.set oo mm).m_object = oo ∧ (s.set oo mm).m_eventReceive = mm)
    ∧ (∀ (σ : Type) (call : Nat → Nat → σ → σ) (s : EventCallbackVoid) (w : σ),
        (s.m_object = none ∨ s.m_eventReceive = none) → s.invoke call w = (s, w))
    ∧ (∀ (P σ : Type) (call : Nat → Nat → P → σ → σ) (s : EventCallbackArg P) (v : P) (w : σ),
        (s.m_object = none ∨ s.m_eventReceive = none) → s.invoke call v w = (s, w))
    ∧ (∀ (P σ : Type) (call : Nat → Nat → Nat → σ → σ) (s : EventCallbackRefArg P)
        (valueLoc : Nat) (w : σ),
        (s.m_object = none ∨ s.m_eventReceive = none) → s.invoke call valueLoc w = (s, w))
    ∧ (∀ (P σ : Type) (call : Nat → Nat → Option Nat → σ → σ) (s : EventCallbackPtrArg P)
        (pv : Option Nat) (w : σ),
        (s.m_object = none ∨ s.m_eventReceive = none) → s.invoke call pv w = (s, w)) := by
  refine ⟨fun s oo mm => ⟨rfl, rfl⟩, fun P s oo mm => ⟨rfl, rfl⟩,
    fun P s oo mm => ⟨rfl, rfl⟩, fun P s oo mm => ⟨rfl, rfl⟩, ?_, ?_, ?_, ?_⟩
  · intro σ call s w h
    exact invoke_null_guard_void call s w h
  · intro P σ call s v w h
    exact invoke_null_guard_arg call s v w h
  · intro P σ call s valueLoc w h
    exact invoke_null_guard_refArg call s valueLoc w h
  · intro P σ call s pv w h
    exact invoke_null_guard_ptrArg call s pv w h

/-- Witness for C10: binding the no-argument variant with a null object and
non-null method, then invoking under the counter semantics, leaves the
counter untouched. -/
theorem C10_null_guard_witness :
    ((EventCallbackVoid.set {} none (some 5)).m_object = none
      ∨ (EventCallbackVoid.set {} none (some 5)).m_eventReceive = none)
    ∧ (EventCallbackVoid.set {} none (some 5)).invoke tickHandler 0
      = (EventCallbackVoid.set {} none (some 5), 0) :=
  ⟨Or.inl rfl,
   C10_null_set_stored_and_invoke_guard.2.2.2.2.1 Nat tickHandler
     (EventCallbackVoid.set {} none (some 5)) 0 (Or.inl rfl)⟩

/-! ## Argument-passing scenarios -/

/-- Point update of a store (the caller's memory for reference and pointer
arguments). -/
def writeStore {P : Type} (st : Nat → P) (loc : Nat) (v : P) : Nat → P :=
  fun x => if x = loc then v else st x

/-- Caller program for the by-value variant: the caller's variable holds
`x0`; the caller passes it to `invoke` (which copies it), then assigns
`v2` to the variable. Result: (final variable value, values the callee
observed). -/
def valueMutateAfter {P : Type} (s : EventCallbackArg P) (x0 v2 : P) : P × List P :=
  (v2, (s.invoke traceArgValue x0 []).2)

/-- Embedding of a handler body `void h(P value) \x7b value = f(value); \x7d`
for the by-value variant: the assignment targets the callee's local copy,
so it has no channel to the caller's variable. The world is (the caller's
variable, the last value the callee's copy held). -/
def copyAssignCallee {P : Type} (f : P → P) :
    Nat → Nat → P → P × Option P → P × Option P :=
  fun _ _ v st => (st.1, some (f v))

/-- Embedding of a handler body `void h(Nat& value) \x7b value = 2 * value; \x7d`
for the by-reference variant: it doubles, in place, the caller's storage at
the location the reference denotes. -/
def doubleHandler : Nat → Nat → Nat → (Nat → Nat) → Nat → Nat :=
  fun _ _ loc st => writeStore st loc (2 * st loc)

/-- C5: For the by-value variant with a bound handler, `invoke(value)`
hands the callee exactly the argument value current at call time: the
observation is fixed at the call, so assigning `v2` to the caller's
variable after `invoke` returns leaves what the callee observed at `x0`;
and a callee that assigns to its parameter mutates only its own copy,
leaving the caller's variable unchanged — concretely, a callee that
increments its copy of 5 ends with 6 while the caller still holds 5. -/
theorem C5_value_variant_passes_a_copy :
    (∀ (P σ : Type) (call : Nat → Nat → P → σ → σ) (s : EventCallbackArg P)
        (o m : Nat) (v : P) (w : σ),
        (s.set (some o) (some m)).invoke call v w
          = (s.set (some o) (some m), call o m v w))
    ∧ (∀ (P : Type) (s : EventCallbackArg P) (o m : Nat) (x0 v2 : P),
        valueMutateAfter (s.set (some o) (some m)) x0 v2 = (v2, [x0]))
    ∧ (∀ (P : Type) (f : P → P) (s : EventCallbackArg P) (o m : Nat) (x0 : P),
        ((s.set (some o) (some m)).invoke (copyAssignCallee f) x0 (x0, none)).2
          = (x0, some (f x0)))
    ∧ ((EventCallbackArg.set ({} : EventCallbackArg Nat) (some 1) (some 2)).invoke
        (copyAssignCallee (fun v => v + 1)) 5 (5, none)).2 = (5, some 6) :=
  ⟨fun _ _ _ _ _ _ _ _ => rfl,
   fun _ _ _ _ _ _ => rfl,
   fun _ _ _ _ _ _ => rfl,
   rfl⟩

/-- C6: For the by-reference variant with a bound handler, `invoke`
passes the caller's storage location straight to the callee, and the store
the callee leaves behind is exactly what the caller sees when `invoke`
returns; in particular a bound doubling handler turns a caller variable
holding 5 into 10. -/
theorem C6_ref_variant_mutation_visible :
    (∀ (P σ : Type) (call : Nat → Nat → Nat → σ → σ) (s : EventCallbackRefArg P)
        (o m valueLoc : Nat) (w : σ),
        (s.set (some o) (some m)).invoke call valueLoc w
          = (s.set (some o) (some m), call o m valueLoc w))
    ∧ ((EventCallbackRefArg.set ({} : EventCallbackRefArg Nat) (some 3) (some 4)).invoke
        doubleHandler 0 (fun _ => 5)).2 0 = 10 :=
  ⟨fun _ _ _ _ _ _ _ _ => rfl, rfl⟩

/-- C7: For the pointer variant with a bound handler, `invoke(valuePtr)`
hands the callee the pointer argument exactly as given under every
dispatch semantics — so a null pointer reaches the callee as null, with no
check, substitution or dereference by the slot: the recorded reception for
a null argument is precisely `(o, m, null)`. -/
theorem C7_ptr_variant_passes_pointer_unchanged :
    (∀ (P σ : Type) (call : Nat → Nat → Option Nat → σ → σ) (s : EventCallbackPtrArg P)
        (o m : Nat) (pv : Option Nat) (w : σ),
        (s.set (some o) (some m)).invoke call pv w
          = (s.set (some o) (some m), call o m pv w))
    ∧ (∀ (P : Type) (s : EventCallbackPtrArg P) (o m : Nat) (pv : Option Nat),
        ((s.set (some o) (some m)).invoke tracePtrArg pv []).2 = [(o, m, pv)])
    ∧ (∀ (P : Type) (s : EventCallbackPtrArg P) (o m : Nat),
        ((s.set (some o) (some m)).invoke tracePtrArg none []).2 = [(o, m, none)]) :=
  ⟨fun _ _ _ _ _ _ _ _ => rfl,
   fun _ _ _ _ _ => rfl,
   fun _ _ _ _ => rfl⟩
